import Mathlib

/-!
Verification development for the Jane data-generation repository
(src/Analysis/Classes).  The Python classes OrderHistory, CustomerInfo,
SchoolAttendance, Students and the Utilities module are shallowly embedded:
calendar dates become integers (days since 2022-01-01), currency amounts
become rationals, and every call to the process-wide random source becomes
an explicit parameter (the drawn value, or an index picking an element of
the sampled pool).
-/

namespace Jane

/-- Month lengths of the (non-leap) year 2022, used to turn a 2022
calendar date into an integer day offset. -/
def monthLengths2022 : List ℕ := [31, 28, 31, 30, 31, 30, 31, 31, 30, 31, 30, 31]

/-- Number of days of 2022 that precede the first day of month `m`. -/
def daysBefore (m : ℕ) : ℕ := (monthLengths2022.take (m - 1)).sum

/-- The 2022 calendar date `m/d` as an integer: days since 2022-01-01.
2022-01-01 itself is day 0 (a Saturday). -/
def date2022 (m d : ℕ) : ℤ := (daysBefore m : ℤ) + (d : ℤ) - 1

/-- Python `date.weekday()` for a day offset: Monday = 0 … Sunday = 6.
Day 0 (2022-01-01) is a Saturday, hence weekday 5. -/
def weekday (n : ℤ) : ℤ := (5 + n) % 7

/-- The content of `holidays.US(years=2022)` used by OrderHistory: the US
federal holidays of 2022 together with their observed dates, as day
offsets.  The first entry is 2021-12-31 (New Year's Day 2022 observed). -/
def usHolidays2022 : List ℤ :=
  [date2022 1 1 - 1,   -- New Year's Day (observed Friday 2021-12-31)
   date2022 1 1,       -- New Year's Day
   date2022 1 17,      -- Martin Luther King Jr. Day
   date2022 2 21,      -- Washington's Birthday
   date2022 5 30,      -- Memorial Day
   date2022 6 19,      -- Juneteenth
   date2022 6 20,      -- Juneteenth (observed)
   date2022 7 4,       -- Independence Day
   date2022 9 5,       -- Labor Day
   date2022 10 10,     -- Columbus Day
   date2022 11 11,     -- Veterans Day
   date2022 11 24,     -- Thanksgiving
   date2022 12 25,     -- Christmas Day
   date2022 12 26]     -- Christmas Day (observed)

/-- The test `shipped_date.weekday() >= 5 or shipped_date in holidays_2022`
from `OrderHistory.set_shipped_date`. -/
def isWeekendOrHoliday (n : ℤ) : Bool :=
  decide (5 ≤ weekday n) || usHolidays2022.contains n

/-- Python banker's rounding of a rational to the nearest integer
(`round` rounds half to even). -/
def bround (q : ℚ) : ℤ :=
  let n := ⌊q⌋
  let f := q - (n : ℚ)
  if f < 1 / 2 then n
  else if 1 / 2 < f then n + 1
  else if Even n then n else n + 1

/-- Python `round(x, 2)`: round to the nearest cent. -/
def round2 (q : ℚ) : ℚ := (bround (q * 100) : ℚ) / 100

/-- Python `round(x, -2)`: round to the nearest multiple of 100. -/
def roundToHundred (q : ℚ) : ℚ := (bround (q / 100) : ℚ) * 100

/-- Python `rn.choice(l)` where the random draw is modelled by the index
`k` reduced modulo the length of the pool.  On an empty pool Python
raises `IndexError`; here the default `0` is returned instead, so callers
that must match Python behaviour assume a nonempty pool. -/
def choose (l : List ℕ) (k : ℕ) : ℕ := l.getD (k % l.length) 0

namespace OrderHistory

/-- The nine fixed peak calendar dates of `OrderHistory.__init__`, in
their source order. -/
def peak_days : List ℤ :=
  [date2022 4 20,
   date2022 11 20,
   date2022 11 21,
   date2022 11 22,
   date2022 11 23,
   date2022 12 19,
   date2022 12 20,
   date2022 12 26,
   date2022 12 27]

/-- `OrderHistory.calculate_dates`: every day of `[start, end]` followed by
four copies of the peak-day list (`dates += self.peak_days * 4`). -/
def calculate_dates (start_date end_date : ℤ) : List ℤ :=
  ((List.range (end_date - start_date + 1).toNat).map (fun (d : ℕ) => start_date + (d : ℤ)))
    ++ (List.replicate 4 peak_days).flatten

/-- `OrderHistory.set_shipped_date`.  `draw` is the value of
`rn.randint(1, 2)`.  The comprehension
`sum([1 for _ in range(3) if shipped_date.weekday() >= 5 or shipped_date in holidays_2022])`
tests the same (never reassigned) `shipped_date` three times, which is
embedded verbatim as a filter over `range 3` with a constant predicate. -/
def set_shipped_date (order_date draw : ℤ) : ℤ :=
  let shipped_date := order_date + draw
  shipped_date +
    (((List.range 3).filter (fun _ => isWeekendOrHoliday shipped_date)).length : ℤ)

/-- The guard `-10 <= days_diff <= 0` of `OrderHistory.set_order_amount`,
where `days_diff = (day - order_date).days`. -/
def peakWindow (order_date day : ℤ) : Bool :=
  decide ((-10 : ℤ) ≤ day - order_date) && decide (day - order_date ≤ 0)

/-- The peak-multiplier loop of `OrderHistory.set_order_amount`: the first
peak day (in source order) whose `days_diff` lies in `[-10, 0]` yields
`1 + 0.2 * abs(days_diff)` and breaks; otherwise the multiplier stays 1.
The float literal `0.2` is modelled as the rational `1/5`. -/
def peak_multiplier (order_date : ℤ) : ℚ :=
  match peak_days.find? (peakWindow order_date) with
  | some day => 1 + (1 / 5 : ℚ) * |((day - order_date : ℤ) : ℚ)|
  | none => 1

/-- `OrderHistory.set_order_amount`: `round(np.random.normal(mu, 15), 2)`
with `mu = aov * spike_multiplier * peak_multiplier`.  The normal sample
is modelled as `mu + noise` with an unconstrained rational `noise`
(a normal distribution has full support); `spike` is the value of the
spike-multiplier draw (1, or a value in `[2, 4)`). -/
def set_order_amount (aov spike noise : ℚ) (order_date : ℤ) : ℚ :=
  round2 (aov * spike * peak_multiplier order_date + noise)

/-- One tier of `OrderHistory.set_customer_pool`: `count` freshly drawn
customer IDs (`draw` is the stream of `rn.randint(1000000, 9999999)`
results, consumed from index `offset`), each repeated `reps` times. -/
def tierPool (count reps : ℕ) (draw : ℕ → ℕ) (offset : ℕ) : List ℕ :=
  (List.range count).flatMap (fun j => List.replicate reps (draw (offset + j)))

/-- `OrderHistory.set_customer_pool` with
`percentages = [0.05, 0.35, 0.60]` and `orders_list = [20, 4, 1]`.
`int(percentage * num_orders // 4)` is modelled in exact arithmetic:
`0.05·N // 4 = N / 80`, `0.35·N // 4 = 7·N / 80`, `0.60·N // 4 = 3·N / 20`
(natural-number division). -/
def set_customer_pool (num_orders : ℕ) (draw : ℕ → ℕ) : List ℕ :=
  tierPool (num_orders / 80) 20 draw 0
    ++ tierPool (7 * num_orders / 80) 4 draw (num_orders / 80)
    ++ tierPool (3 * num_orders / 20) 1 draw (num_orders / 80 + 7 * num_orders / 80)

/-- `OrderHistory.get_customer_ids`: `set(self.customer_pool)`. -/
def get_customer_ids (pool : List ℕ) : Finset ℕ := pool.toFinset

/-- The `customer_id` column of `OrderHistory.generate_data`: one
`set_customer_id()` call (`rn.choice(self.customer_pool)`) per order,
the choice draws being modelled by `pick`. -/
def order_customer_ids (num_orders : ℕ) (pool : List ℕ) (pick : ℕ → ℕ) : List ℕ :=
  (List.range num_orders).map (fun i => choose pool (pick i))

/-- The per-customer accumulation `order_totals[order['customer_id']] += order['order_amount']`
of `OrderHistory.get_spend_weights`, over the generated orders projected
to their `(customer_id, order_amount)` fields. -/
def order_total (orders : List (ℕ × ℚ)) (c : ℕ) : ℚ :=
  ((orders.filter (fun o => o.1 == c)).map Prod.snd).sum

/-- `max_total = max(order_totals.values())` of
`OrderHistory.get_spend_weights`; the dict iterates customers in first
`customer_id` occurrence order.  Python `max` raises on an empty dict;
the embedding returns 0 there. -/
def max_total (orders : List (ℕ × ℚ)) : ℚ :=
  match (orders.map Prod.fst).dedup.map (order_total orders) with
  | [] => 0
  | t :: ts => ts.foldr max t

/-- The spend weight a customer receives downstream: the entry
`1 + 2 * (v / max_total)` of the dict returned by
`OrderHistory.get_spend_weights` when the customer placed at least one
order, composed with the `.get(customer_id, 1)` default used by
`CustomerInfo.set_credit_limit` for unknown IDs. -/
def spend_weight (orders : List (ℕ × ℚ)) (c : ℕ) : ℚ :=
  if c ∈ orders.map Prod.fst then 1 + 2 * (order_total orders c / max_total orders) else 1

end OrderHistory

namespace CustomerInfo

/-- `CustomerInfo.set_credit_limit`:
`round(np.random.uniform(1000, 5000) * self.spend_weights.get(customer_id, 1), -2)`.
`u` is the uniform draw (in `[1000, 5000)`), `w` the spend weight looked
up for the customer. -/
def set_credit_limit (u w : ℚ) : ℚ := roundToHundred (u * w)

/-- An entry of the list returned by `uszipcode`'s
`SearchEngine.by_state`, restricted to the two fields the source reads. -/
structure Location where
  major_city : String
  zipcode : String
deriving DecidableEq, Repr

instance : Inhabited Location := ⟨⟨"", ""⟩⟩

/-- The `excluded_states` list of `CustomerInfo.set_city_state_zip`. -/
def excluded_states : List String := ["AK", "HI", "DC", "PR"]

/-- `rn.choice` over a location list, the draw modelled by index `k`
(Python raises `IndexError` on an empty list; that case is handled by
the caller's `try/except`). -/
def chooseLoc (l : List Location) (k : ℕ) : Location := l.getD (k % l.length) default

/-- One iteration of the retry loop of `CustomerInfo.set_city_state_zip`:
sample a state abbreviation (`stateDraw i` models `fake.state_abbr()`),
skip it if it is excluded, look up its locations (`resolver` models
`search.by_state`; an empty result makes `rn.choice` raise `IndexError`,
which the source catches and treats as a failed attempt), otherwise
return the `(major_city, state, zipcode)` triple of a randomly chosen
location (`choice` objects are always truthy, so `if choice:` succeeds). -/
def attempt (stateDraw : ℕ → String) (resolver : String → List Location)
    (pick : ℕ → ℕ) (i : ℕ) : Option (String × String × String) :=
  let state := stateDraw i
  if state ∈ excluded_states then none
  else
    let locs := resolver state
    if locs.isEmpty then none
    else
      let c := chooseLoc locs (pick i)
      some (c.major_city, state, c.zipcode)

/-- The fallback triple returned when all five tries fail. -/
def cszFallback : String × String × String := ("Los Angeles", "CA", "90210")

/-- The `for i in range(5)` loop of `CustomerInfo.set_city_state_zip`,
by recursion on the remaining tries. -/
def cszLoop (stateDraw : ℕ → String) (resolver : String → List Location)
    (pick : ℕ → ℕ) : ℕ → ℕ → String × String × String
  | 0, _ => cszFallback
  | fuel + 1, i =>
    match attempt stateDraw resolver pick i with
    | some t => t
    | none => cszLoop stateDraw resolver pick fuel (i + 1)

/-- `CustomerInfo.set_city_state_zip`: five tries, then the fallback. -/
def set_city_state_zip (stateDraw : ℕ → String) (resolver : String → List Location)
    (pick : ℕ → ℕ) : String × String × String :=
  cszLoop stateDraw resolver pick 5 0

end CustomerInfo

namespace SchoolAttendance

/-- A row of the `school_attendance` dataset. -/
structure AttendanceRecord where
  date : ℤ
  student_id : ℕ
  attendance : Bool
deriving DecidableEq, Repr

/-- `SchoolAttendance.calculate_dates`: every day of `[start, end]`. -/
def calculate_dates (start_date end_date : ℤ) : List ℤ :=
  (List.range (end_date - start_date + 1).toNat).map (fun (d : ℕ) => start_date + (d : ℤ))

/-- `SchoolAttendance.set_student_ids`: `[s for s in range(1, max_student_id + 1)]`. -/
def set_student_ids (max_student_id : ℕ) : List ℕ :=
  (List.range max_student_id).map (fun s => s + 1)

/-- `SchoolAttendance.generate_data`: dates in the outer loop, student IDs
in the inner loop, one record per pair.  `att` models the independent
`set_random_attendance()` draws (uniform over `[True]*4 + [False]`). -/
def generate_data (start_date end_date : ℤ) (max_student_id : ℕ)
    (att : ℤ → ℕ → Bool) : List AttendanceRecord :=
  (calculate_dates start_date end_date).flatMap (fun d =>
    (set_student_ids max_student_id).map (fun sid => ⟨d, sid, att d sid⟩))

end SchoolAttendance

namespace Students

/-- The weighted month pool `[3] * 12 + [i for i in range(1, 13)] * 5` of
`Students.set_date_of_birth`. -/
def birth_month_pool : List ℕ :=
  List.replicate 12 3 ++ (List.replicate 5 ((List.range 12).map (fun i => i + 1))).flatten

/-- The day-count conditional of `Students.set_date_of_birth`:
`28 if birth_month == 2 else 30 if birth_month in {4, 6, 9, 11} else 31`. -/
def daysIn (birth_month : ℕ) : ℕ :=
  if birth_month = 2 then 28
  else if birth_month = 4 ∨ birth_month = 6 ∨ birth_month = 9 ∨ birth_month = 11 then 30
  else 31

/-- `Students.set_date_of_birth` for a student of the given grade level.
`todayYear` is `date.today().year`; `mpick` models the `rn.choice` over
the month pool and `dpick` the `rn.randint(1, days)` draw (`1 + dpick % days`
has exactly the support `1..days`).  Returns `(year, month, day)`. -/
def set_date_of_birth (todayYear : ℤ) (grade_level : ℕ) (mpick dpick : ℕ) : ℤ × ℕ × ℕ :=
  let birth_year := todayYear - ((grade_level : ℤ) + 5)
  let birth_month := choose birth_month_pool mpick
  let birth_day := 1 + dpick % daysIn birth_month
  (birth_year, birth_month, birth_day)

end Students

namespace Utilities

/-- A row record: a mapping from column name to value, as fed to
`to_dataframe` (values are modelled as integers, which is what every
claim about the assembler uses). -/
def Record : Type := String → ℤ

/-- Lexicographic comparison of key tuples, as `pandas.sort_values`
compares rows on a list of sort columns. -/
def lexLe : List ℤ → List ℤ → Bool
  | [], _ => true
  | _ :: _, [] => false
  | a :: as, b :: bs => if a < b then true else if b < a then false else lexLe as bs

/-- Row comparison used by the sort in `to_dataframe`: compare the
`by`-column key tuples, reversed when `ascending` is `False`. -/
def sortLe (cols : List String) (ascending : Bool) (r s : Record) : Bool :=
  if ascending then lexLe (cols.map r) (cols.map s) else lexLe (cols.map s) (cols.map r)

/-- Modelled from the spec: the sorting engine of `to_dataframe` is
`pandas.DataFrame.sort_values`, external library code that is not part of
this repository; following the spec's words it is modelled as a stable
sort by the given keys (`List.mergeSort`).  Everything around it is from
the source: sort only when `by` is truthy, then, when `add_id` is set,
insert an `id` column `range(1, len(df) + 1)` in the final row order
(`filename`/`sql_table` persistence is outside the assembler contract). -/
def to_dataframe (data : List Record) (cols : List String) (ascending : Bool)
    (add_id : Bool) : List (Option ℕ × Record) :=
  let df := if cols.isEmpty then data else data.mergeSort (sortLe cols ascending)
  if add_id then ((List.range df.length).zip df).map (fun p => (some (p.1 + 1), p.2))
  else df.map (fun r => (none, r))

end Utilities

/-! Helper lemmas. -/

/-- Banker's rounding never moves a value up by more than one half. -/
theorem bround_le (q : ℚ) : (bround q : ℚ) ≤ q + 1 / 2 := by
  simp only [bround]
  have hf1 := Int.floor_le q
  have hf2 := Int.lt_floor_add_one q
  split_ifs <;> push_cast <;> linarith

/-- Banker's rounding never moves a value down by more than one half. -/
theorem le_bround (q : ℚ) : q - 1 / 2 ≤ (bround q : ℚ) := by
  simp only [bround]
  have hf1 := Int.floor_le q
  have hf2 := Int.lt_floor_add_one q
  split_ifs <;> push_cast <;> linarith

/-- A `rn.choice` from a nonempty pool yields an element of the pool. -/
theorem choose_mem {l : List ℕ} (k : ℕ) (h : l ≠ []) : choose l k ∈ l := by
  unfold choose
  have hl : 0 < l.length := List.length_pos.mpr h
  have hk : k % l.length < l.length := Nat.mod_lt _ hl
  rw [List.getD_eq_getElem?_getD, List.getElem?_eq_getElem hk]
  simp only [Option.getD_some]
  exact List.getElem_mem hk

/-- C10: in `OrderHistory.set_shipped_date` the weekend/holiday correction
adds either 0 days or exactly 3 days, never 1 or 2 — all three checks of
the comprehension test the same initially drawn shipped date — so for
every order date the returned shipped date is the order date plus 1, 2,
4 or 5 days. -/
theorem claim_C10 (order_date draw : ℤ) (h : draw = 1 ∨ draw = 2) :
    (OrderHistory.set_shipped_date order_date draw = order_date + draw ∨
     OrderHistory.set_shipped_date order_date draw = order_date + draw + 3) ∧
    (OrderHistory.set_shipped_date order_date draw = order_date + 1 ∨
     OrderHistory.set_shipped_date order_date draw = order_date + 2 ∨
     OrderHistory.set_shipped_date order_date draw = order_date + 4 ∨
     OrderHistory.set_shipped_date order_date draw = order_date + 5) := by
  have hs : OrderHistory.set_shipped_date order_date draw = order_date + draw ∨
      OrderHistory.set_shipped_date order_date draw = order_date + draw + 3 := by
    unfold OrderHistory.set_shipped_date
    cases hb : isWeekendOrHoliday (order_date + draw)
    · left; simp [hb]
    · right; simp [hb]
  refine ⟨hs, ?_⟩
  rcases h with h | h <;> subst h <;> rcases hs with hs | hs
  · exact Or.inl hs
  · right; right; left; rw [hs]; ring
  · right; left; exact hs
  · right; right; right; rw [hs]; ring

/-- Witness for C10 at order date 0 and draw 1. -/
theorem claim_C10_witness :
    (OrderHistory.set_shipped_date 0 1 = 0 + 1 ∨
     OrderHistory.set_shipped_date 0 1 = 0 + 1 + 3) ∧
    (OrderHistory.set_shipped_date 0 1 = 0 + 1 ∨
     OrderHistory.set_shipped_date 0 1 = 0 + 2 ∨
     OrderHistory.set_shipped_date 0 1 = 0 + 4 ∨
     OrderHistory.set_shipped_date 0 1 = 0 + 5) :=
  claim_C10 0 1 (Or.inl rfl)

/-- C3: the claim that a shipped date never falls on a Saturday, Sunday or
US federal holiday fails on the code.  The peak day 2022-11-23 is in
every date pool `calculate_dates` builds; with a shipping draw of 1 the
initially drawn shipped date is Thanksgiving (2022-11-24), the stale
three-fold check then adds 3 days, and the returned shipped date
2022-11-27 is a Sunday (Python weekday 6). -/
theorem claim_C3_code_eval (start_date end_date : ℤ) :
    date2022 11 23 ∈ OrderHistory.calculate_dates start_date end_date ∧
    OrderHistory.set_shipped_date (date2022 11 23) 1 = date2022 11 27 ∧
    weekday (date2022 11 27) = 6 := by
  refine ⟨?_, ?_, by decide⟩
  · unfold OrderHistory.calculate_dates
    exact List.mem_append_right _ (by decide)
  · norm_num [OrderHistory.set_shipped_date, isWeekendOrHoliday, weekday, usHolidays2022,
              date2022, daysBefore, monthLengths2022, List.filter]

/-- C6: `set_city_state_zip` makes at most 5 attempts, returns the sampled
triple of the first successful attempt, and returns the fixed fallback
`(Los Angeles, CA, 90210)` when all 5 attempts fail; being a total
function of the resolver's behaviour, it never raises to the caller. -/
theorem claim_C6 (stateDraw : ℕ → String) (resolver : String → List CustomerInfo.Location)
    (pick : ℕ → ℕ) :
    CustomerInfo.set_city_state_zip stateDraw resolver pick =
      ((List.range 5).findSome? (CustomerInfo.attempt stateDraw resolver pick)).getD
        CustomerInfo.cszFallback := by
  show CustomerInfo.cszLoop stateDraw resolver pick 5 0 = _
  have h5 : List.range 5 = [0, 1, 2, 3, 4] := by decide
  rw [h5]
  cases h0 : CustomerInfo.attempt stateDraw resolver pick 0 <;>
    cases h1 : CustomerInfo.attempt stateDraw resolver pick 1 <;>
    cases h2 : CustomerInfo.attempt stateDraw resolver pick 2 <;>
    cases h3 : CustomerInfo.attempt stateDraw resolver pick 3 <;>
    cases h4 : CustomerInfo.attempt stateDraw resolver pick 4 <;>
    simp [CustomerInfo.cszLoop, List.findSome?, h0, h1, h2, h3, h4]

/-- C9 counterexample: March appears 17 times in the 72-element month
pool while every other month appears 5 times, so March does not carry
12 times the weight of another month. -/
theorem claim_C9_counterexample :
    Students.birth_month_pool.count 3 = 17 ∧
    Students.birth_month_pool.count 1 = 5 ∧
    Students.birth_month_pool.count 3 ≠ 12 * Students.birth_month_pool.count 1 := by
  decide

/-- C9 (amended): the month pool has 72 elements of which 17 are March
(12 extra Marches plus the 5 copies every month gets, a 3.4-fold rather
than 12-fold weight); the birth year equals `current_year − (grade_level + 5)`;
the month is always a pool element in `[1, 12]` and the day always lies in
`[1, daysIn month]` (28 for February, 30 for April/June/September/November,
31 otherwise), so every returned value is a constructible calendar date. -/
theorem claim_C9 :
    Students.birth_month_pool.length = 72 ∧
    Students.birth_month_pool.count 3 = 17 ∧
    (∀ m ∈ Students.birth_month_pool, m ≠ 3 → Students.birth_month_pool.count m = 5) ∧
    (∀ (todayYear : ℤ) (grade_level mpick dpick : ℕ),
      (Students.set_date_of_birth todayYear grade_level mpick dpick).1
          = todayYear - ((grade_level : ℤ) + 5) ∧
      (Students.set_date_of_birth todayYear grade_level mpick dpick).2.1
          ∈ Students.birth_month_pool ∧
      1 ≤ (Students.set_date_of_birth todayYear grade_level mpick dpick).2.1 ∧
      (Students.set_date_of_birth todayYear grade_level mpick dpick).2.1 ≤ 12 ∧
      1 ≤ (Students.set_date_of_birth todayYear grade_level mpick dpick).2.2 ∧
      (Students.set_date_of_birth todayYear grade_level mpick dpick).2.2
          ≤ Students.daysIn (Students.set_date_of_birth todayYear grade_level mpick dpick).2.1) := by
  refine ⟨by decide, by decide, by decide, ?_⟩
  intro todayYear grade_level mpick dpick
  have hne : Students.birth_month_pool ≠ [] := by decide
  have hmem : choose Students.birth_month_pool mpick ∈ Students.birth_month_pool :=
    choose_mem mpick hne
  have hbounds : ∀ m ∈ Students.birth_month_pool, 1 ≤ m ∧ m ≤ 12 := by decide
  have hpos : 0 < Students.daysIn (choose Students.birth_month_pool mpick) := by
    unfold Students.daysIn; split_ifs <;> norm_num
  have hmod := Nat.mod_lt dpick hpos
  have hday : 1 + dpick % Students.daysIn (choose Students.birth_month_pool mpick)
      ≤ Students.daysIn (choose Students.birth_month_pool mpick) := by omega
  exact ⟨rfl, hmem, (hbounds _ hmem).1, (hbounds _ hmem).2, Nat.le_add_right 1 _, hday⟩

/-- Witness for C9 at month 1 (a non-March pool member has count 5). -/
theorem claim_C9_witness : Students.birth_month_pool.count 1 = 5 :=
  claim_C9.2.2.1 1 (by decide) (by decide)

/-- C8 counterexample: with aov 50, spike multiplier 1, an order date far
from every peak day and a normal sample 100 below its mean, the order
amount is −50, which is not positive. -/
theorem claim_C8_counterexample :
    OrderHistory.set_order_amount 50 1 (-100) 0 = -50 ∧
    ¬ (0 < OrderHistory.set_order_amount 50 1 (-100) 0) := by
  have h : OrderHistory.set_order_amount 50 1 (-100) 0 = -50 := by
    norm_num [OrderHistory.set_order_amount, OrderHistory.peak_multiplier,
              OrderHistory.peak_days, OrderHistory.peakWindow, date2022, daysBefore,
              monthLengths2022, List.find?, round2, bround, Int.floor_eq_iff]
  exact ⟨h, by rw [h]; norm_num⟩

/-- C8 (amended): the order amount is the normal sample rounded to cents;
it is positive whenever the sample (mean `aov × spike × peak_multiplier`
plus noise) exceeds half a cent, but a sufficiently negative sample
yields a non-positive amount. -/
theorem claim_C8 (aov spike noise : ℚ) (order_date : ℤ)
    (h : 1 / 200 < aov * spike * OrderHistory.peak_multiplier order_date + noise) :
    0 < OrderHistory.set_order_amount aov spike noise order_date := by
  unfold OrderHistory.set_order_amount round2
  have h2 := le_bround ((aov * spike * OrderHistory.peak_multiplier order_date + noise) * 100)
  have h3 : (0 : ℚ) <
      (bround ((aov * spike * OrderHistory.peak_multiplier order_date + noise) * 100) : ℚ) := by
    linarith
  positivity

/-- Witness for C8 at aov 50, spike 1, zero noise, order date 0. -/
theorem claim_C8_witness : 0 < OrderHistory.set_order_amount 50 1 0 0 :=
  claim_C8 50 1 0 0 (by
    norm_num [OrderHistory.peak_multiplier, OrderHistory.peak_days, OrderHistory.peakWindow,
              date2022, daysBefore, monthLengths2022, List.find?])

/-- C5 counterexample: on the peak date 2022-04-20 itself the multiplier
is 1, while ten days after it is 3 — the ramp does not reach its maximum
on the peak date. -/
theorem claim_C5_counterexample :
    OrderHistory.peak_multiplier (date2022 4 20) = 1 ∧
    OrderHistory.peak_multiplier (date2022 4 20 + 10) = 3 ∧
    OrderHistory.peak_multiplier (date2022 4 20)
      < OrderHistory.peak_multiplier (date2022 4 20 + 10) := by
  have h1 : OrderHistory.peak_multiplier (date2022 4 20) = 1 := by
    norm_num [OrderHistory.peak_multiplier, OrderHistory.peak_days, OrderHistory.peakWindow,
              date2022, daysBefore, monthLengths2022, List.find?]
  have h2 : OrderHistory.peak_multiplier (date2022 4 20 + 10) = 3 := by
    norm_num [OrderHistory.peak_multiplier, OrderHistory.peak_days, OrderHistory.peakWindow,
              date2022, daysBefore, monthLengths2022, List.find?]
  exact ⟨h1, h2, by rw [h1, h2]; norm_num⟩

/-- C5 (amended): the multiplier equals `1 + 0.2·|peak_day − order_date|`
for the first peak day (in the fixed source order) with
`peak_day − order_date ∈ [−10, 0]` and 1 when no peak day matches; since
the window covers order dates on or up to ten days AFTER a peak day, the
ramp starts at 1 on the peak date and reaches its maximum (3) exactly
ten days after the peak date, shown here on the isolated April peak. -/
theorem claim_C5 :
    (∀ (order_date day : ℤ),
        OrderHistory.peak_days.find? (OrderHistory.peakWindow order_date) = some day →
        OrderHistory.peak_multiplier order_date
          = 1 + (1 / 5 : ℚ) * ((order_date - day : ℤ) : ℚ)) ∧
    (∀ order_date : ℤ,
        OrderHistory.peak_days.find? (OrderHistory.peakWindow order_date) = none →
        OrderHistory.peak_multiplier order_date = 1) ∧
    (∀ k : ℕ, k ≤ 10 →
        OrderHistory.peak_multiplier (date2022 4 20 + (k : ℤ)) = 1 + (k : ℚ) / 5) := by
  refine ⟨?_, ?_, ?_⟩
  · intro od day h
    have hw : OrderHistory.peakWindow od day = true := List.find?_some h
    unfold OrderHistory.peakWindow at hw
    simp only [Bool.and_eq_true, decide_eq_true_eq] at hw
    unfold OrderHistory.peak_multiplier
    rw [h]
    have habs : |((day - od : ℤ) : ℚ)| = ((od - day : ℤ) : ℚ) := by
      rw [abs_of_nonpos (by exact_mod_cast hw.2)]
      push_cast
      ring
    show 1 + (1 / 5 : ℚ) * |((day - od : ℤ) : ℚ)| = 1 + (1 / 5 : ℚ) * ((od - day : ℤ) : ℚ)
    rw [habs]
  · intro od h
    unfold OrderHistory.peak_multiplier
    rw [h]
  · intro k hk
    have hfind : OrderHistory.peak_days.find? (OrderHistory.peakWindow (date2022 4 20 + (k : ℤ)))
        = some (date2022 4 20) := by
      unfold OrderHistory.peak_days
      rw [List.find?_cons_of_pos]
      unfold OrderHistory.peakWindow
      simp only [Bool.and_eq_true, decide_eq_true_eq]
      constructor <;> omega
    unfold OrderHistory.peak_multiplier
    rw [hfind]
    show 1 + (1 / 5 : ℚ) * |((date2022 4 20 - (date2022 4 20 + (k : ℤ)) : ℤ) : ℚ)| = _
    have : ((date2022 4 20 - (date2022 4 20 + (k : ℤ)) : ℤ) : ℚ) = -(k : ℚ) := by
      push_cast; ring
    rw [this, abs_neg, abs_of_nonneg (by positivity)]
    ring

/-- Witness for C5 ten days after the April peak. -/
theorem claim_C5_witness :
    OrderHistory.peak_multiplier (date2022 4 20 + ((10 : ℕ) : ℤ)) = 1 + ((10 : ℕ) : ℚ) / 5 :=
  claim_C5.2.2 10 (by norm_num)

set_option maxRecDepth 20000 in
/-- C1 counterexample: with 80 orders, fresh IDs 0..19 drawn into the
pool, and every per-order choice picking the first pool slot, the
profiles iterate over all 20 distinct pool IDs while the orders only
ever use ID 0 — a customer profile whose ID appears in no order. -/
theorem claim_C1_counterexample :
    OrderHistory.get_customer_ids (OrderHistory.set_customer_pool 80 (fun i => i))
      ≠ (OrderHistory.order_customer_ids 80 (OrderHistory.set_customer_pool 80 (fun i => i))
          (fun _ => 0)).toFinset := by
  decide

/-- C1 (amended): the customer IDs of the generated profiles are exactly
`set(customer_pool)`, and every order's `customer_id` — a choice from a
nonempty pool — has a profile; but the converse inclusion can fail, since
orders sample the pool with replacement and may leave a pool ID unused. -/
theorem claim_C1 (num_orders : ℕ) (draw pick : ℕ → ℕ)
    (h : OrderHistory.set_customer_pool num_orders draw ≠ []) :
    (OrderHistory.order_customer_ids num_orders
        (OrderHistory.set_customer_pool num_orders draw) pick).toFinset
      ⊆ OrderHistory.get_customer_ids (OrderHistory.set_customer_pool num_orders draw) := by
  intro a ha
  rw [List.mem_toFinset] at ha
  unfold OrderHistory.order_customer_ids at ha
  rw [List.mem_map] at ha
  obtain ⟨i, _, rfl⟩ := ha
  unfold OrderHistory.get_customer_ids
  rw [List.mem_toFinset]
  exact choose_mem _ h

set_option maxRecDepth 20000 in
/-- Witness for C1 at 80 orders with identity draw and pick streams. -/
theorem claim_C1_witness :
    (OrderHistory.order_customer_ids 80 (OrderHistory.set_customer_pool 80 (fun i => i))
        (fun i => i)).toFinset
      ⊆ OrderHistory.get_customer_ids (OrderHistory.set_customer_pool 80 (fun i => i)) :=
  claim_C1 80 (fun i => i) (fun i => i) (by decide)

/-- Every element of a nonempty list is bounded by the fold of `max`
over the list (the value Python's `max` returns). -/
theorem mem_le_foldr_max (ts : List ℚ) : ∀ (t x : ℚ), x ∈ t :: ts → x ≤ ts.foldr max t := by
  induction ts with
  | nil =>
    intro t x hx
    rw [List.mem_singleton] at hx
    simp [hx]
  | cons b bs ih =>
    intro t x hx
    simp only [List.foldr_cons]
    rcases List.mem_cons.mp hx with h | h
    · subst h
      exact le_trans (ih x x (List.mem_cons_self x bs)) (le_max_right _ _)
    · rcases List.mem_cons.mp h with h2 | h2
      · subst h2
        exact le_max_left _ _
      · exact le_trans (ih t x (List.mem_cons.mpr (Or.inr h2))) (le_max_right _ _)

/-- A customer's accumulated total never exceeds `max_total`. -/
theorem le_max_total (orders : List (ℕ × ℚ)) (c : ℕ) (hc : c ∈ orders.map Prod.fst) :
    OrderHistory.order_total orders c ≤ OrderHistory.max_total orders := by
  unfold OrderHistory.max_total
  have hcol : OrderHistory.order_total orders c
      ∈ (orders.map Prod.fst).dedup.map (OrderHistory.order_total orders) :=
    List.mem_map_of_mem _ (List.mem_dedup.mpr hc)
  cases hl : (orders.map Prod.fst).dedup.map (OrderHistory.order_total orders) with
  | nil => rw [hl] at hcol; simp at hcol
  | cons t ts =>
    rw [hl] at hcol
    show OrderHistory.order_total orders c ≤ ts.foldr max t
    exact mem_le_foldr_max ts t _ hcol

/-- With nonnegative order amounts every accumulated total is nonnegative. -/
theorem order_total_nonneg (orders : List (ℕ × ℚ)) (hpos : ∀ o ∈ orders, 0 ≤ o.2) (c : ℕ) :
    0 ≤ OrderHistory.order_total orders c := by
  unfold OrderHistory.order_total
  apply List.sum_nonneg
  intro x hx
  rw [List.mem_map] at hx
  obtain ⟨o, ho, rfl⟩ := hx
  exact hpos o (List.mem_filter.mp ho).1

/-- With nonnegative order amounts and a positive maximum total, every
spend weight lies in `[1, 3]`. -/
theorem spend_weight_bounds (orders : List (ℕ × ℚ)) (c : ℕ)
    (hpos : ∀ o ∈ orders, 0 ≤ o.2) (hmax : 0 < OrderHistory.max_total orders) :
    1 ≤ OrderHistory.spend_weight orders c ∧ OrderHistory.spend_weight orders c ≤ 3 := by
  unfold OrderHistory.spend_weight
  split_ifs with hc
  · have ht0 : 0 ≤ OrderHistory.order_total orders c := order_total_nonneg orders hpos c
    have htm : OrderHistory.order_total orders c ≤ OrderHistory.max_total orders :=
      le_max_total orders c hc
    have hr0 : 0 ≤ OrderHistory.order_total orders c / OrderHistory.max_total orders :=
      div_nonneg ht0 hmax.le
    have hr1 : OrderHistory.order_total orders c / OrderHistory.max_total orders ≤ 1 :=
      (div_le_one hmax).mpr htm
    constructor <;> linarith
  · norm_num

/-- Rounding to the nearest hundred keeps a value of `[1000, 15000)`
inside `[1000, 15000]`. -/
theorem roundToHundred_bounds (x : ℚ) (h1 : 1000 ≤ x) (h2 : x < 15000) :
    1000 ≤ roundToHundred x ∧ roundToHundred x ≤ 15000 := by
  unfold roundToHundred
  have hl := le_bround (x / 100)
  have hu := bround_le (x / 100)
  have h9 : (9 : ℤ) < bround (x / 100) := by
    have h9q : (9 : ℚ) < (bround (x / 100) : ℚ) := by
      have : (10 : ℚ) ≤ x / 100 := by linarith
      linarith
    exact_mod_cast h9q
  have h151 : bround (x / 100) < (151 : ℤ) := by
    have h151q : ((bround (x / 100) : ℚ)) < 151 := by
      have : x / 100 < 150 := by linarith
      linarith
    exact_mod_cast h151q
  constructor
  · have : (10 : ℚ) ≤ (bround (x / 100) : ℚ) := by exact_mod_cast (by omega : (10 : ℤ) ≤ _)
    linarith
  · have : ((bround (x / 100) : ℚ)) ≤ 150 := by exact_mod_cast (by omega : bround (x / 100) ≤ (150 : ℤ))
    linarith

/-- C4 counterexample: a generated order set can contain a negative
order amount (a low normal sample), which drives that customer's spend
weight below 1 — here to −1 — and the resulting credit limit to −2000,
outside `[1000, 15000]`, for a uniform draw of 2000. -/
theorem claim_C4_counterexample :
    OrderHistory.set_order_amount 50 1 (-150) 0 = -100 ∧
    OrderHistory.set_order_amount 50 1 50 0 = 100 ∧
    OrderHistory.spend_weight [(1, -100), (2, 100)] 1 = -1 ∧
    CustomerInfo.set_credit_limit 2000 (OrderHistory.spend_weight [(1, -100), (2, 100)] 1)
        = -2000 ∧
    ¬ (1000 ≤ CustomerInfo.set_credit_limit 2000
        (OrderHistory.spend_weight [(1, -100), (2, 100)] 1)) := by
  have ha1 : OrderHistory.set_order_amount 50 1 (-150) 0 = -100 := by
    norm_num [OrderHistory.set_order_amount, OrderHistory.peak_multiplier,
              OrderHistory.peak_days, OrderHistory.peakWindow, date2022, daysBefore,
              monthLengths2022, List.find?, round2, bround, Int.floor_eq_iff]
  have ha2 : OrderHistory.set_order_amount 50 1 50 0 = 100 := by
    norm_num [OrderHistory.set_order_amount, OrderHistory.peak_multiplier,
              OrderHistory.peak_days, OrderHistory.peakWindow, date2022, daysBefore,
              monthLengths2022, List.find?, round2, bround, Int.floor_eq_iff]
  have ht1 : OrderHistory.order_total [(1, -100), (2, 100)] 1 = -100 := by
    norm_num [OrderHistory.order_total, List.filter_cons]
  have ht2 : OrderHistory.order_total [(1, -100), (2, 100)] 2 = 100 := by
    norm_num [OrderHistory.order_total, List.filter_cons]
  have hd : (([((1 : ℕ), (-100 : ℚ)), (2, 100)].map Prod.fst)).dedup = [1, 2] := by decide
  have hmax : OrderHistory.max_total [(1, -100), (2, 100)] = 100 := by
    unfold OrderHistory.max_total
    rw [hd]
    simp only [List.map_cons, List.map_nil, ht1, ht2]
    simp [max_def]
  have hw : OrderHistory.spend_weight [(1, -100), (2, 100)] 1 = -1 := by
    rw [OrderHistory.spend_weight, if_pos (by decide), ht1, hmax]
    norm_num
  have hcl : CustomerInfo.set_credit_limit 2000
      (OrderHistory.spend_weight [(1, -100), (2, 100)] 1) = -2000 := by
    rw [hw]
    norm_num [CustomerInfo.set_credit_limit, roundToHundred, bround, Int.floor_eq_iff]
  exact ⟨ha1, ha2, hw, hcl, by rw [hcl]; norm_num⟩

/-- C4 (amended): provided every generated order amount is nonnegative
(so that every spend weight, including the default 1 for unknown IDs,
lies in `[1, 3]`) and the maximum customer total is positive, the credit
limit `round(uniform(1000, 5000) × weight, -2)` lies in `[1000, 15000]`;
a negative order amount (possible under the normal draw) breaks the
claimed bound, as the counterexample shows. -/
theorem claim_C4 (orders : List (ℕ × ℚ)) (c : ℕ) (u : ℚ)
    (hpos : ∀ o ∈ orders, 0 ≤ o.2) (hmax : 0 < OrderHistory.max_total orders)
    (hu1 : 1000 ≤ u) (hu2 : u < 5000) :
    1000 ≤ CustomerInfo.set_credit_limit u (OrderHistory.spend_weight orders c) ∧
    CustomerInfo.set_credit_limit u (OrderHistory.spend_weight orders c) ≤ 15000 := by
  obtain ⟨hw1, hw3⟩ := spend_weight_bounds orders c hpos hmax
  have hx1 : 1000 ≤ u * OrderHistory.spend_weight orders c := by nlinarith
  have hx2 : u * OrderHistory.spend_weight orders c < 15000 := by nlinarith
  unfold CustomerInfo.set_credit_limit
  exact roundToHundred_bounds _ hx1 hx2

/-- Witness for C4: a single customer with total 100 receives spend
weight 3 and, for a uniform draw of 1000, a credit limit inside the
stated range. -/
theorem claim_C4_witness :
    1000 ≤ CustomerInfo.set_credit_limit 1000 (OrderHistory.spend_weight [(1, 100)] 1) ∧
    CustomerInfo.set_credit_limit 1000 (OrderHistory.spend_weight [(1, 100)] 1) ≤ 15000 :=
  claim_C4 [(1, 100)] 1 1000 (by norm_num)
    (by
      have ht1 : OrderHistory.order_total [(1, 100)] 1 = 100 := by
        norm_num [OrderHistory.order_total, List.filter_cons]
      have hd : (([((1 : ℕ), (100 : ℚ))].map Prod.fst)).dedup = [1] := by decide
      have hmax : OrderHistory.max_total [(1, 100)] = 100 := by
        unfold OrderHistory.max_total
        rw [hd]
        simp only [List.map_cons, List.map_nil, ht1]
        simp
      rw [hmax]
      norm_num)
    (le_refl 1000) (by norm_num)


/-- Membership in the attendance date range. -/
theorem mem_sa_calculate_dates (s e d : ℤ) :
    d ∈ SchoolAttendance.calculate_dates s e ↔ s ≤ d ∧ d ≤ e := by
  unfold SchoolAttendance.calculate_dates
  constructor
  · intro hmem
    rw [List.mem_map] at hmem
    obtain ⟨i, hi, rfl⟩ := hmem
    rw [List.mem_range] at hi
    omega
  · intro hh
    rw [List.mem_map]
    refine ⟨(d - s).toNat, ?_, ?_⟩
    · rw [List.mem_range]
      omega
    · omega

/-- The attendance date range contains no duplicates. -/
theorem nodup_sa_calculate_dates (s e : ℤ) : (SchoolAttendance.calculate_dates s e).Nodup := by
  unfold SchoolAttendance.calculate_dates
  have hf : Function.Injective (fun (d : ℕ) => s + (d : ℤ)) := by
    intro a b h
    simp only [add_right_inj, Nat.cast_inj] at h
    exact h
  exact List.Nodup.map hf (List.nodup_range _)

/-- Membership in the student-ID list. -/
theorem mem_set_student_ids (maxId sid : ℕ) :
    sid ∈ SchoolAttendance.set_student_ids maxId ↔ 1 ≤ sid ∧ sid ≤ maxId := by
  unfold SchoolAttendance.set_student_ids
  constructor
  · intro hmem
    rw [List.mem_map] at hmem
    obtain ⟨i, hi, rfl⟩ := hmem
    rw [List.mem_range] at hi
    omega
  · intro hh
    rw [List.mem_map]
    refine ⟨sid - 1, ?_, ?_⟩
    · rw [List.mem_range]
      omega
    · omega

/-- The student-ID list contains no duplicates. -/
theorem nodup_set_student_ids (maxId : ℕ) : (SchoolAttendance.set_student_ids maxId).Nodup := by
  unfold SchoolAttendance.set_student_ids
  have hf : Function.Injective (fun (s : ℕ) => s + 1) := by
    intro a b h
    simp only [add_left_inj] at h
    exact h
  exact List.Nodup.map hf (List.nodup_range _)

/-- Summing an indicator over a duplicate-free list counts membership. -/
theorem sum_map_ite_count (d : ℤ) (c : ℕ) : ∀ (l : List ℤ), l.Nodup →
    (l.map (fun x => if x = d then c else 0)).sum = if d ∈ l then c else 0 := by
  intro l
  induction l with
  | nil => simp
  | cons a t ih =>
    intro hnd
    rw [List.nodup_cons] at hnd
    simp only [List.map_cons, List.sum_cons]
    by_cases had : a = d
    · subst had
      rw [if_pos rfl, if_pos (List.mem_cons_self a t), ih hnd.2, if_neg hnd.1]
      omega
    · rw [if_neg had, ih hnd.2]
      by_cases hdt : d ∈ t
      · rw [if_pos hdt, if_pos (List.mem_cons.mpr (Or.inr hdt))]
        omega
      · rw [if_neg hdt, if_neg (by
          rw [List.mem_cons]
          rintro (h | h)
          · exact had h.symm
          · exact hdt h)]

/-- C2: for start ≤ end and a positive student count the generator emits
exactly `(end − start + 1) × max_student_id` records — dates outer,
student IDs 1..max inner — and every `(date, student_id)` pair of the
cross-product appears in exactly one record (pairs outside it in none). -/
theorem claim_C2 (s e : ℤ) (maxId : ℕ) (att : ℤ → ℕ → Bool)
    (h1 : s ≤ e) (h2 : 0 < maxId) :
    (SchoolAttendance.generate_data s e maxId att).length = (e - s + 1).toNat * maxId ∧
    ∀ (d : ℤ) (sid : ℕ),
      (SchoolAttendance.generate_data s e maxId att).countP
          (fun r => decide (r.date = d ∧ r.student_id = sid))
        = if s ≤ d ∧ d ≤ e ∧ 1 ≤ sid ∧ sid ≤ maxId then 1 else 0 := by
  constructor
  · unfold SchoolAttendance.generate_data
    rw [List.length_flatMap]
    have hmap : List.map (List.length ∘ fun d' =>
        (SchoolAttendance.set_student_ids maxId).map
          (fun sid' => (⟨d', sid', att d' sid'⟩ : SchoolAttendance.AttendanceRecord)))
        (SchoolAttendance.calculate_dates s e)
        = List.map (fun _ => maxId) (SchoolAttendance.calculate_dates s e) := by
      apply List.map_congr_left
      intro x _
      simp [SchoolAttendance.set_student_ids]
    rw [hmap, List.map_const', List.sum_replicate, smul_eq_mul]
    simp [SchoolAttendance.calculate_dates]
  · intro d sid
    unfold SchoolAttendance.generate_data
    rw [List.countP_flatMap]
    by_cases hA : 1 ≤ sid ∧ sid ≤ maxId
    · have hinner : ∀ d' : ℤ,
          (List.countP (fun r : SchoolAttendance.AttendanceRecord =>
              decide (r.date = d ∧ r.student_id = sid)) ∘ fun d' =>
            (SchoolAttendance.set_student_ids maxId).map
              (fun sid' => (⟨d', sid', att d' sid'⟩ : SchoolAttendance.AttendanceRecord))) d'
          = if d' = d then 1 else 0 := by
        intro d'
        simp only [Function.comp_apply]
        rw [List.countP_map]
        by_cases hd : d' = d
        · subst hd
          rw [if_pos rfl]
          have hpred : ((fun r : SchoolAttendance.AttendanceRecord =>
              decide (r.date = d' ∧ r.student_id = sid)) ∘
                fun sid' => (⟨d', sid', att d' sid'⟩ : SchoolAttendance.AttendanceRecord))
              = fun sid' : ℕ => sid' == sid := by
            funext x
            by_cases hx : x = sid <;> simp [hx]
          rw [hpred]
          exact List.count_eq_one_of_mem (nodup_set_student_ids maxId)
            ((mem_set_student_ids maxId sid).mpr hA)
        · rw [if_neg hd, List.countP_eq_zero]
          intro a _
          simp [hd]
      rw [List.map_congr_left (fun x _ => hinner x)]
      rw [sum_map_ite_count d 1 _ (nodup_sa_calculate_dates s e)]
      simp only [mem_sa_calculate_dates]
      by_cases hd : s ≤ d ∧ d ≤ e
      · rw [if_pos hd, if_pos ⟨hd.1, hd.2, hA.1, hA.2⟩]
      · rw [if_neg hd, if_neg (by tauto)]
    · have hinner : ∀ d' : ℤ,
          (List.countP (fun r : SchoolAttendance.AttendanceRecord =>
              decide (r.date = d ∧ r.student_id = sid)) ∘ fun d' =>
            (SchoolAttendance.set_student_ids maxId).map
              (fun sid' => (⟨d', sid', att d' sid'⟩ : SchoolAttendance.AttendanceRecord))) d' = 0 := by
        intro d'
        simp only [Function.comp_apply]
        rw [List.countP_map, List.countP_eq_zero]
        intro a ha
        rw [mem_set_student_ids] at ha
        simp only [Function.comp_apply, decide_eq_true_eq]
        rintro ⟨-, rfl⟩
        exact hA ha
      rw [List.map_congr_left (fun x _ => hinner x)]
      rw [if_neg (by tauto)]
      simp

/-- Witness for C2 on the 2023-01-01..2023-01-03 range (day offsets
365..367 from 2022-01-01) with 5 students: exactly 15 records. -/
theorem claim_C2_witness :
    (SchoolAttendance.generate_data 365 367 5 (fun _ _ => true)).length = 15 := by
  have h := (claim_C2 365 367 5 (fun _ _ => true) (by norm_num) (by norm_num)).1
  simpa using h


/-- Lexicographic comparison is reflexive-total: one direction always holds. -/
theorem lexLe_total : ∀ (x y : List ℤ), Utilities.lexLe x y = true ∨ Utilities.lexLe y x = true := by
  intro x
  induction x with
  | nil => intro y; left; rfl
  | cons a as ih =>
    intro y
    cases y with
    | nil => right; rfl
    | cons b bs =>
      simp only [Utilities.lexLe]
      by_cases hab : a < b
      · left
        rw [if_pos hab]
      · by_cases hba : b < a
        · right
          rw [if_pos hba]
        · rcases ih bs with h | h
          · left
            rw [if_neg hab, if_neg hba]
            exact h
          · right
            rw [if_neg hba, if_neg hab]
            exact h

/-- Lexicographic comparison is transitive. -/
theorem lexLe_trans : ∀ (x y z : List ℤ), Utilities.lexLe x y = true →
    Utilities.lexLe y z = true → Utilities.lexLe x z = true := by
  intro x
  induction x with
  | nil => intro y z h1 h2; rfl
  | cons a as ih =>
    intro y z h1 h2
    cases y with
    | nil => simp [Utilities.lexLe] at h1
    | cons b bs =>
      cases z with
      | nil => simp [Utilities.lexLe] at h2
      | cons c cs =>
        simp only [Utilities.lexLe] at h1 h2 ⊢
        split_ifs at h1 h2 ⊢ <;>
          first
            | rfl
            | (exact ih bs cs h1 h2)
            | (exfalso; omega)

/-- The row comparison of `to_dataframe` is transitive. -/
theorem sortLe_trans (cols : List String) (asc : Bool) :
    ∀ r s t : Utilities.Record, Utilities.sortLe cols asc r s = true →
      Utilities.sortLe cols asc s t = true → Utilities.sortLe cols asc r t = true := by
  intro r s t h1 h2
  unfold Utilities.sortLe at h1 h2 ⊢
  cases asc
  · simp only [if_neg Bool.false_ne_true] at h1 h2 ⊢
    exact lexLe_trans _ _ _ h2 h1
  · simp only [if_pos rfl] at h1 h2 ⊢
    exact lexLe_trans _ _ _ h1 h2

/-- The row comparison of `to_dataframe` is total. -/
theorem sortLe_total (cols : List String) (asc : Bool) :
    ∀ r s : Utilities.Record,
      (Utilities.sortLe cols asc r s || Utilities.sortLe cols asc s r) = true := by
  intro r s
  unfold Utilities.sortLe
  cases asc <;> simp only [if_neg Bool.false_ne_true, if_pos rfl] <;>
    rcases lexLe_total (cols.map r) (cols.map s) with h | h <;> simp [h]

/-- The rows of an identified `to_dataframe` result: the input, sorted
when a sort key was given. -/
theorem to_dataframe_rows (data : List Utilities.Record) (cols : List String) (asc : Bool) :
    (Utilities.to_dataframe data cols asc true).map Prod.snd
      = if cols.isEmpty then data else data.mergeSort (Utilities.sortLe cols asc) := by
  simp only [Utilities.to_dataframe, if_true]
  rw [List.map_map]
  show List.map Prod.snd ((List.range _).zip _) = _
  exact List.map_snd_zip _ _ (by rw [List.length_range])

/-- The identifier column of a `to_dataframe` result: `1, 2, …, n` in
final row order. -/
theorem to_dataframe_ids (data : List Utilities.Record) (cols : List String) (asc : Bool) :
    (Utilities.to_dataframe data cols asc true).map Prod.fst
      = (List.range data.length).map (fun i => some (i + 1)) := by
  have hlen : (if cols.isEmpty then data
      else data.mergeSort (Utilities.sortLe cols asc)).length = data.length := by
    by_cases hc : cols.isEmpty <;> simp [hc, List.length_mergeSort]
  simp only [Utilities.to_dataframe, if_true]
  rw [List.map_map]
  show List.map ((fun i => some (i + 1)) ∘ Prod.fst) ((List.range _).zip _) = _
  rw [← List.map_map, List.map_fst_zip _ _ (by rw [List.length_range]), hlen]

/-- C7: on records with keys 3, 1, 2 sorted ascending by that key with
an identifier column, the rows come out in key order 1, 2, 3 carrying
identifiers 1, 2, 3; in general the identified result's rows are a
permutation of the input that is sorted by the given keys, its sort is
stable (any key-sorted sublist of the input survives as a sublist), and
its identifier column is `1, 2, …, n` in final row order. -/
theorem claim_C7 :
    ((Utilities.to_dataframe [fun _ => 3, fun _ => 1, fun _ => 2] ["k"] true true).map
        (fun p => (p.1, p.2 "k")) = [(some 1, 1), (some 2, 2), (some 3, 3)]) ∧
    (∀ (data : List Utilities.Record) (cols : List String) (asc : Bool),
      ((Utilities.to_dataframe data cols asc true).map Prod.snd).Perm data ∧
      ((Utilities.to_dataframe data cols asc true).map Prod.fst
          = (List.range data.length).map (fun i => some (i + 1))) ∧
      (¬ cols.isEmpty → List.Pairwise (fun r s => Utilities.sortLe cols asc r s = true)
          ((Utilities.to_dataframe data cols asc true).map Prod.snd)) ∧
      (∀ c : List Utilities.Record,
          c.Pairwise (fun r s => Utilities.sortLe cols asc r s = true) → c.Sublist data →
          c.Sublist ((Utilities.to_dataframe data cols asc true).map Prod.snd))) := by
  have hgen : ∀ (data : List Utilities.Record) (cols : List String) (asc : Bool),
      ((Utilities.to_dataframe data cols asc true).map Prod.snd).Perm data ∧
      ((Utilities.to_dataframe data cols asc true).map Prod.fst
          = (List.range data.length).map (fun i => some (i + 1))) ∧
      (¬ cols.isEmpty → List.Pairwise (fun r s => Utilities.sortLe cols asc r s = true)
          ((Utilities.to_dataframe data cols asc true).map Prod.snd)) ∧
      (∀ c : List Utilities.Record,
          c.Pairwise (fun r s => Utilities.sortLe cols asc r s = true) → c.Sublist data →
          c.Sublist ((Utilities.to_dataframe data cols asc true).map Prod.snd)) := by
    intro data cols asc
    refine ⟨?_, to_dataframe_ids data cols asc, ?_, ?_⟩
    · rw [to_dataframe_rows]
      by_cases hc : cols.isEmpty
      · rw [if_pos hc]
      · rw [if_neg hc]
        exact List.mergeSort_perm data _
    · intro hc
      rw [to_dataframe_rows, if_neg hc]
      exact List.sorted_mergeSort (sortLe_trans cols asc) (sortLe_total cols asc) data
    · intro c hpair hsub
      rw [to_dataframe_rows]
      by_cases hc : cols.isEmpty
      · rw [if_pos hc]
        exact hsub
      · rw [if_neg hc]
        exact List.mergeSort_stable (sortLe_trans cols asc) (sortLe_total cols asc) hpair hsub
  refine ⟨?_, hgen⟩
  -- the concrete three-record example
  obtain ⟨hperm, hids, hsort, -⟩ :=
    hgen [fun _ => 3, fun _ => 1, fun _ => 2] ["k"] true
  have hkeys : ((Utilities.to_dataframe [fun _ => 3, fun _ => 1, fun _ => 2] ["k"] true
      true).map Prod.snd).map (fun r => r "k") = [1, 2, 3] := by
    have hm := hperm.map (fun r : Utilities.Record => r "k")
    rw [show List.map (fun r : Utilities.Record => r "k") [fun _ => 3, fun _ => 1, fun _ => 2]
        = [3, 1, 2] from rfl] at hm
    have hp2 : (((Utilities.to_dataframe [fun _ => 3, fun _ => 1, fun _ => 2] ["k"] true
        true).map Prod.snd).map (fun r => r "k")).Perm [1, 2, 3] :=
      hm.trans (show ([3, 1, 2] : List ℤ).Perm [1, 2, 3] by decide)
    have hs1 : List.Pairwise (fun a b : ℤ => a ≤ b)
        (((Utilities.to_dataframe [fun _ => 3, fun _ => 1, fun _ => 2] ["k"] true
          true).map Prod.snd).map (fun r => r "k")) := by
      rw [List.pairwise_map]
      refine (hsort (by decide)).imp ?_
      intro r s hrs
      have hx : Utilities.lexLe [r "k"] [s "k"] = true := by
        simpa [Utilities.sortLe] using hrs
      simp only [Utilities.lexLe] at hx
      split_ifs at hx <;> omega
    have hs2 : List.Pairwise (fun a b : ℤ => a ≤ b) ([1, 2, 3] : List ℤ) := by decide
    exact List.eq_of_perm_of_sorted hp2 hs1 hs2
  have hzip : (Utilities.to_dataframe [fun _ => 3, fun _ => 1, fun _ => 2] ["k"] true
      true).map (fun p => (p.1, p.2 "k"))
      = ((Utilities.to_dataframe [fun _ => 3, fun _ => 1, fun _ => 2] ["k"] true
          true).map Prod.fst).zip
        ((Utilities.to_dataframe [fun _ => 3, fun _ => 1, fun _ => 2] ["k"] true
          true).map (fun p => p.2 "k")) := by
    rw [List.zip_map']
  rw [hzip, hids]
  have : (Utilities.to_dataframe [fun _ => 3, fun _ => 1, fun _ => 2] ["k"] true
      true).map (fun p => p.2 "k")
      = ((Utilities.to_dataframe [fun _ => 3, fun _ => 1, fun _ => 2] ["k"] true
          true).map Prod.snd).map (fun r => r "k") := by
    rw [List.map_map]
    rfl
  rw [this, hkeys]
  rfl

/-- Witness for C7: the singleton key-sorted sublist holding the key-1
record survives the sort as a sublist. -/
theorem claim_C7_witness :
    [(fun _ => (1 : ℤ) : Utilities.Record)].Sublist
      ((Utilities.to_dataframe [fun _ => 3, fun _ => 1, fun _ => 2] ["k"] true true).map
        Prod.snd) :=
  (claim_C7.2 [fun _ => 3, fun _ => 1, fun _ => 2] ["k"] true).2.2.2
    [fun _ => (1 : ℤ)] (by simp)
    (List.singleton_sublist.mpr (List.mem_cons.mpr (Or.inr (List.mem_cons_self _ _))))

end Jane
